import Mathlib

/-!
Shallow embedding of the Trader repository's validator, AI-analysis and
position-monitor logic.

Conventions of the embedding:
- JavaScript floating-point numbers (prices, percentages, liquidity) are
  modelled as rationals (ℚ); timestamps in milliseconds as integers (ℤ).
- Network calls are modelled by passing their results in as parameters
  (an `Option` is `none` when the underlying HTTP call throws).
- Human-readable messages that interpolate numbers keep only their constant
  text; exit reasons are modelled by a constructor per source branch,
  carrying the numeric quantity the source would have formatted.
-/

/-- Configuration record mirroring the fields of `config` in the source
(only the fields the verified components read). -/
structure Config where
  takeProfitPercent : ℚ
  stopLossPercent : ℚ
  maxHoldTime : ℤ
  minLiquidity : ℚ
  minMarketCap : ℚ
  maxRiskScore : ℕ
  authorizedUsers : List String
deriving Repr

/-- Default configuration: every environment variable absent, so each field
takes the fallback value written in the source. -/
def config : Config :=
  { takeProfitPercent := 20
    stopLossPercent := -10
    maxHoldTime := 300000
    minLiquidity := 1000
    minMarketCap := 5000
    maxRiskScore := 7
    authorizedUsers := [] }

/-- Result record of `TokenValidator.validateToken`. -/
structure TokenValidation where
  isValid : Bool
  riskScore : ℕ
  liquidity : ℚ
  marketCap : ℚ
  holderCount : ℕ
  topHolderPercent : ℚ
  hasLiquidityLock : Bool
  canMint : Bool
  canFreeze : Bool
  reasons : List String
deriving Repr, DecidableEq

/-- The upstream data `validateToken` gathers before scoring: the parsed
mint-account authorities, the DEX market data, and the holder distribution.
The whole bundle is `none` when the surrounding try block throws. -/
structure ValidateInputs where
  canMint : Bool
  canFreeze : Bool
  liquidity : ℚ
  marketCap : ℚ
  holderCount : ℕ
  topHolderPercent : ℚ
deriving Repr, DecidableEq

/-- Embedding of `TokenValidator.validateToken`, with the upstream fetches
passed in as `upstream` (`none` models the catch branch). The risk score and
reasons list are accumulated in the source's order. -/
def validateToken (cfg : Config) (upstream : Option ValidateInputs) : TokenValidation :=
  match upstream with
  | none =>
      { isValid := false
        riskScore := 10
        liquidity := 0
        marketCap := 0
        holderCount := 0
        topHolderPercent := 0
        hasLiquidityLock := false
        canMint := true
        canFreeze := true
        reasons := ["❌ Failed to validate token"] }
  | some inp =>
      let canMint := inp.canMint
      let canFreeze := inp.canFreeze
      let rs1 : ℕ := if canMint then 0 + 3 else 0
      let reasons1 : List String :=
        if canMint then ["⚠️ Mint authority still enabled"] else []
      let rs2 : ℕ := if canFreeze then rs1 + 2 else rs1
      let reasons2 := reasons1 ++
        (if canFreeze then ["⚠️ Freeze authority still enabled"] else [])
      let rs3 : ℕ := if inp.liquidity < cfg.minLiquidity then rs2 + 2 else rs2
      let reasons3 := reasons2 ++
        (if inp.liquidity < cfg.minLiquidity then ["⚠️ Low liquidity"] else [])
      let rs4 : ℕ := if inp.marketCap < cfg.minMarketCap then rs3 + 1 else rs3
      let reasons4 := reasons3 ++
        (if inp.marketCap < cfg.minMarketCap then ["⚠️ Low market cap"] else [])
      let rs5 : ℕ := if inp.topHolderPercent > 50 then rs4 + 2 else rs4
      let reasons5 := reasons4 ++
        (if inp.topHolderPercent > 50 then ["⚠️ Concentrated ownership"] else [])
      let rs6 : ℕ := if inp.holderCount < 10 then rs5 + 1 else rs5
      let reasons6 := reasons5 ++
        (if inp.holderCount < 10 then ["⚠️ Few holders"] else [])
      let reasons7 := reasons6 ++
        (if !canMint && !canFreeze then ["✅ Mint and freeze authority revoked"] else [])
      let reasons8 := reasons7 ++
        (if inp.liquidity ≥ cfg.minLiquidity * 2 then ["✅ Strong liquidity"] else [])
      let isValid :=
        decide (rs6 ≤ cfg.maxRiskScore) &&
        decide (inp.liquidity ≥ cfg.minLiquidity) &&
        decide (inp.marketCap ≥ cfg.minMarketCap)
      { isValid := isValid
        riskScore := rs6
        liquidity := inp.liquidity
        marketCap := inp.marketCap
        holderCount := inp.holderCount
        topHolderPercent := inp.topHolderPercent
        hasLiquidityLock := false
        canMint := canMint
        canFreeze := canFreeze
        reasons := reasons8 }

/-- The recommendation union type of `TokenAnalysis`. -/
inductive Recommendation where
  | BUY
  | HOLD
  | AVOID
deriving Repr, DecidableEq

/-- Helper for the substring test: does `sub` occur contiguously in the
second list? -/
def containsSubstrAux (sub : List Char) : List Char → Bool
  | [] => sub.isEmpty
  | c :: rest => sub.isPrefixOf (c :: rest) || containsSubstrAux sub rest

/-- JavaScript `String.prototype.includes`: contiguous substring test. -/
def containsSubstr (s sub : String) : Bool :=
  containsSubstrAux sub.data s.data

/-- JavaScript `String.prototype.toLowerCase`, as a character-wise map. -/
def stringToLower (s : String) : String :=
  String.mk (s.data.map Char.toLower)

/-- Embedding of `AIAnalysisService.extractRecommendation`. -/
def extractRecommendation (analysis : String) (validation : TokenValidation) :
    Recommendation :=
  let lowerAnalysis := stringToLower analysis
  if containsSubstr lowerAnalysis "strong buy" ||
      (containsSubstr lowerAnalysis "buy" && decide (validation.riskScore ≤ 3)) then
    Recommendation.BUY
  else if containsSubstr lowerAnalysis "avoid" || decide (validation.riskScore ≥ 7) then
    Recommendation.AVOID
  else if containsSubstr lowerAnalysis "buy" && decide (validation.riskScore ≤ 5) then
    Recommendation.BUY
  else
    Recommendation.HOLD

/-- Embedding of `AIAnalysisService.calculateConfidence`, accumulating the
adjustment in the source's order and clamping with min/max as the source does. -/
def calculateConfidence (cfg : Config) (validation : TokenValidation) : ℚ :=
  let baseConfidence : ℚ := 100 - (validation.riskScore : ℚ) * 10
  let adjustment0 : ℚ := 0
  let adjustment1 :=
    if validation.liquidity ≥ cfg.minLiquidity * 3 then adjustment0 + 10 else adjustment0
  let adjustment2 :=
    if validation.marketCap ≥ cfg.minMarketCap * 3 then adjustment1 + 10 else adjustment1
  let adjustment3 :=
    if !validation.canMint && !validation.canFreeze then adjustment2 + 15 else adjustment2
  min 100 (max 0 (baseConfidence + adjustment3))

/-- Authorization check of the bot front end: an empty configured list means
no restriction; otherwise membership of the decimal rendering of the id. -/
def isAuthorized (authorizedUsers : List String) (userId : ℤ) : Bool :=
  if authorizedUsers.length = 0 then
    true
  else
    authorizedUsers.contains (toString userId)

/-- The `Position` record tracked by the monitor. -/
structure Position where
  tokenMint : String
  tokenSymbol : String
  entryPrice : ℚ
  entryTime : ℤ
  amountSol : ℚ
  active : Bool
deriving Repr, DecidableEq

/-- State of a `PositionMonitor`: the position map and the interval map,
each modelled as a function from mint to its entry (membership for the
interval map, whose timer handles carry no information we track). -/
structure MonitorState where
  positions : String → Option Position
  monitoringIntervals : String → Bool

/-- The empty monitor, as constructed. -/
def initState : MonitorState :=
  { positions := fun _ => none
    monitoringIntervals := fun _ => false }

/-- Exit reasons, one constructor per branch of the source's reason-string
construction, carrying the quantity the source interpolates. -/
inductive ExitReason where
  | takeProfit (profitPercent : ℚ)
  | stopLoss (profitPercent : ℚ)
  | maxHold (timeHeldMs : ℤ)
  | manual
deriving Repr, DecidableEq

/-- Outcome of an `exitPosition` call: early return on a missing or inactive
position, a result record on success, or a propagated sell exception. -/
inductive ExitOutcome where
  | noop
  | success (reason : ExitReason) (signature : String) (finalPrice : ℚ)
  | threw
deriving Repr, DecidableEq

/-- `PositionMonitor.addPosition`: stores a fresh active position under the
mint (overwriting any existing record) and starts monitoring it. `now`
stands for `Date.now()`. -/
def PositionMonitor.addPosition (now : ℤ) (tokenMint tokenSymbol : String)
    (entryPrice amountSol : ℚ) (s : MonitorState) : MonitorState :=
  let position : Position :=
    { tokenMint := tokenMint
      tokenSymbol := tokenSymbol
      entryPrice := entryPrice
      entryTime := now
      amountSol := amountSol
      active := true }
  { positions := fun k => if k = tokenMint then some position else s.positions k
    monitoringIntervals := fun k =>
      if k = tokenMint then true else s.monitoringIntervals k }

/-- `PositionMonitor.exitPosition`. `sellResult` is the outcome of
`pumpPortal.sellToken` (`some signature` on success, `none` when it throws);
`finalPrice` is the result of the `getCurrentPrice` call made for the result
record. The source mutates `position.active` only after the sell call
returns, so a throwing sell leaves the state untouched. -/
def PositionMonitor.exitPosition (tokenMint : String) (reason : ExitReason)
    (sellResult : Option String) (finalPrice : ℚ) (s : MonitorState) :
    MonitorState × ExitOutcome :=
  match s.positions tokenMint with
  | none => (s, ExitOutcome.noop)
  | some position =>
    if position.active then
      match sellResult with
      | none => (s, ExitOutcome.threw)
      | some signature =>
        let position' := { position with active := false }
        ({ positions := fun k =>
             if k = tokenMint then some position' else s.positions k
           monitoringIntervals := fun k =>
             if k = tokenMint then false else s.monitoringIntervals k },
         ExitOutcome.success reason signature finalPrice)
    else (s, ExitOutcome.noop)

/-- The profit percentage computed by `checkPosition`. -/
def profitPercentOf (currentPrice entryPrice : ℚ) : ℚ :=
  (currentPrice - entryPrice) / entryPrice * 100

/-- `PositionMonitor.checkPosition`. `currentPrice` is the result of the
`getCurrentPrice` call (total: 0 on failure); `now` is `Date.now()`. The
second component is the surfaced exit reason, `none` when no exit fires.
The catch-all around the body swallows a sell exception, so the state after
a throwing `exitPosition` is simply the unchanged state it left behind. -/
def PositionMonitor.checkPosition (cfg : Config) (now : ℤ) (tokenMint : String)
    (currentPrice : ℚ) (sellResult : Option String) (finalPrice : ℚ)
    (s : MonitorState) : MonitorState × Option ExitReason :=
  match s.positions tokenMint with
  | none => (s, none)
  | some position =>
    if position.active then
      if currentPrice = 0 then (s, none)
      else
        let profitPercent := profitPercentOf currentPrice position.entryPrice
        let timeHeld := now - position.entryTime
        if profitPercent ≥ cfg.takeProfitPercent ∨
            profitPercent ≤ cfg.stopLossPercent ∨
            timeHeld ≥ cfg.maxHoldTime then
          let reason : ExitReason :=
            if profitPercent ≥ cfg.takeProfitPercent then
              ExitReason.takeProfit profitPercent
            else if profitPercent ≤ cfg.stopLossPercent then
              ExitReason.stopLoss profitPercent
            else
              ExitReason.maxHold timeHeld
          ((PositionMonitor.exitPosition tokenMint reason sellResult finalPrice s).1,
           some reason)
        else (s, none)
    else (s, none)

/-- `PositionMonitor.manualExit`: throws when no active position exists,
otherwise delegates to `exitPosition` with the manual reason, rethrowing a
sell failure and returning the signature (or the empty string) on success. -/
def PositionMonitor.manualExit (tokenMint : String) (sellResult : Option String)
    (finalPrice : ℚ) (s : MonitorState) : MonitorState × Except String String :=
  match s.positions tokenMint with
  | none => (s, Except.error "No active position for this token")
  | some position =>
    if position.active then
      match PositionMonitor.exitPosition tokenMint ExitReason.manual sellResult
          finalPrice s with
      | (s', ExitOutcome.success _ signature _) => (s', Except.ok signature)
      | (s', ExitOutcome.threw) => (s', Except.error "Failed to sell token")
      | (s', ExitOutcome.noop) => (s', Except.ok "")
    else (s, Except.error "No active position for this token")

/-- `PositionMonitor.stopAll`: cancels every monitoring interval; positions
are left untouched. -/
def PositionMonitor.stopAll (s : MonitorState) : MonitorState :=
  { s with monitoringIntervals := fun _ => false }

/-- One operation on the monitor, with the results of the network calls it
would make carried as data. -/
inductive MonitorOp where
  | addPosition (now : ℤ) (tokenMint tokenSymbol : String)
      (entryPrice amountSol : ℚ)
  | checkPosition (now : ℤ) (tokenMint : String) (currentPrice : ℚ)
      (sellResult : Option String) (finalPrice : ℚ)
  | exitPosition (tokenMint : String) (reason : ExitReason)
      (sellResult : Option String) (finalPrice : ℚ)
  | manualExit (tokenMint : String) (sellResult : Option String) (finalPrice : ℚ)
  | stopAll
deriving Repr, DecidableEq

/-- Apply one operation to the monitor state. -/
def stepOp (cfg : Config) (s : MonitorState) : MonitorOp → MonitorState
  | MonitorOp.addPosition now mint sym ep amt =>
      PositionMonitor.addPosition now mint sym ep amt s
  | MonitorOp.checkPosition now mint price sell fp =>
      (PositionMonitor.checkPosition cfg now mint price sell fp s).1
  | MonitorOp.exitPosition mint reason sell fp =>
      (PositionMonitor.exitPosition mint reason sell fp s).1
  | MonitorOp.manualExit mint sell fp =>
      (PositionMonitor.manualExit mint sell fp s).1
  | MonitorOp.stopAll => PositionMonitor.stopAll s

/-- Run a sequence of operations from the freshly constructed monitor. -/
def runOps (cfg : Config) (ops : List MonitorOp) : MonitorState :=
  ops.foldl (stepOp cfg) initState

/-- Whether the position stored under `mint` exists and is active. -/
def activeInState (s : MonitorState) (mint : String) : Bool :=
  match s.positions mint with
  | some p => p.active
  | none => false

/-- Whether an operation is an `addPosition` for the given mint. -/
def isAddFor (mint : String) : MonitorOp → Bool
  | MonitorOp.addPosition _ m _ _ _ => m = mint
  | _ => false

/-- One direction of the spec's monitoring invariant: an interval-map entry
only exists for mints whose stored position is active. -/
def IntervalImpliesActive (s : MonitorState) : Prop :=
  ∀ k, s.monitoringIntervals k = true → activeInState s k = true

/-- The spec's full monitoring invariant: an interval-map entry exists for a
mint exactly when an active position is stored there. -/
def IntervalIffActive (s : MonitorState) : Prop :=
  ∀ k, s.monitoringIntervals k = activeInState s k

/-- `PositionMonitor.getCurrentPrice`: `primary` models the first price
endpoint (`none` when the request throws, `some none` when the response
carries no usable price, i.e. the JS expression falls back to 0) and
`fallback` the secondary endpoint's list of pairs (`none` when it throws).
Total: every failure maps to 0. -/
def getCurrentPrice (primary : Option (Option ℚ)) (fallback : Option (List ℚ)) : ℚ :=
  match primary with
  | some priceField =>
      match priceField with
      | some price => price
      | none => 0
  | none =>
      match fallback with
      | some pairs =>
          match pairs with
          | [] => 0
          | p :: _ => p
      | none => 0

/-- A validation record with risk score 8 and an empty model text, used as a
concrete high-risk input. -/
def highRiskValidation : TokenValidation :=
  { isValid := false
    riskScore := 8
    liquidity := 0
    marketCap := 0
    holderCount := 0
    topHolderPercent := 0
    hasLiquidityLock := false
    canMint := true
    canFreeze := true
    reasons := [] }

/-- Upstream data where every penalty fires at once. -/
def worstCaseInputs : ValidateInputs :=
  { canMint := true
    canFreeze := true
    liquidity := 0
    marketCap := 0
    holderCount := 1
    topHolderPercent := 60 }

/-- Upstream data with exactly the mint, freeze and low-liquidity penalties
firing under the default configuration. -/
def sevenInputs : ValidateInputs :=
  { canMint := true
    canFreeze := true
    liquidity := 500
    marketCap := 5000
    holderCount := 100
    topHolderPercent := 10 }


/-! Theorems about the embedded program. -/

/-- C10: if the configured authorized-users list is empty, `isAuthorized`
accepts every user id; otherwise it accepts exactly the ids whose decimal
rendering appears in the list. -/
theorem c10_isAuthorized_spec (users : List String) (userId : ℤ) :
    (users = [] → isAuthorized users userId = true) ∧
    (users ≠ [] → (isAuthorized users userId = true ↔ toString userId ∈ users)) := by
  constructor
  · intro h
    subst h
    rfl
  · intro h
    unfold isAuthorized
    rw [if_neg (by simpa [List.length_eq_zero] using h)]
    simp

/-- Witness for C10 at concrete inputs. -/
theorem c10_isAuthorized_spec_witness :
    isAuthorized [] 42 = true ∧
    (isAuthorized ["7"] 42 = true ↔ toString (42 : ℤ) ∈ ["7"]) :=
  ⟨(c10_isAuthorized_spec [] 42).1 rfl,
   (c10_isAuthorized_spec ["7"] 42).2 (by decide)⟩

/-- C2 counterexample: a model text containing STRONG BUY makes
`extractRecommendation` return BUY even though the risk score is 8 ≥ 7, so a
risk score of at least 7 does not force AVOID for every text. -/
theorem c2_counterexample :
    7 ≤ highRiskValidation.riskScore ∧
    extractRecommendation "Insane degen play. STRONG BUY" highRiskValidation =
      Recommendation.BUY ∧
    extractRecommendation "Insane degen play. STRONG BUY" highRiskValidation ≠
      Recommendation.AVOID := by decide

/-- C2 amended: when the risk score is at least 7, `extractRecommendation`
returns AVOID for every model text whose lowercasing does not contain the
substring "strong buy". -/
theorem c2_risk_seven_forces_avoid (analysis : String) (v : TokenValidation)
    (hrs : 7 ≤ v.riskScore)
    (hsb : containsSubstr (stringToLower analysis) "strong buy" = false) :
    extractRecommendation analysis v = Recommendation.AVOID := by
  have h3 : decide (v.riskScore ≤ 3) = false := by
    simp only [decide_eq_false_iff_not]
    omega
  have h7 : decide (v.riskScore ≥ 7) = true := by
    simpa using hrs
  simp only [extractRecommendation, hsb, h3, h7, Bool.and_false, Bool.false_or,
    Bool.or_true, if_false, if_true, Bool.false_eq_true, ite_false, ite_true]

/-- Witness for C2's amended theorem at concrete inputs. -/
theorem c2_risk_seven_forces_avoid_witness :
    extractRecommendation "Total rug. avoid." highRiskValidation =
      Recommendation.AVOID :=
  c2_risk_seven_forces_avoid "Total rug. avoid." highRiskValidation
    (by decide) (by decide)

/-- C3: with every penalty firing, `validateToken` returns a risk score of
11, above the 0-10 range the claim (and the source's own interface comment)
promises. -/
theorem c3_riskScore_can_exceed_ten :
    (validateToken config (some worstCaseInputs)).riskScore = 11 ∧
    ¬(validateToken config (some worstCaseInputs)).riskScore ≤ 10 := by decide

/-- C7: on the non-failure path the risk score is exactly the sum of the six
listed penalty contributions, and the mint+freeze+low-liquidity example under
the default configuration yields 7. -/
theorem c7_riskScore_additive :
    (∀ (cfg : Config) (inp : ValidateInputs),
      (validateToken cfg (some inp)).riskScore =
        (if inp.canMint then 3 else 0) +
        (if inp.canFreeze then 2 else 0) +
        (if inp.liquidity < cfg.minLiquidity then 2 else 0) +
        (if inp.marketCap < cfg.minMarketCap then 1 else 0) +
        (if inp.topHolderPercent > 50 then 2 else 0) +
        (if inp.holderCount < 10 then 1 else 0)) ∧
    (validateToken config (some sevenInputs)).riskScore = 7 := by
  constructor
  · intro cfg inp
    unfold validateToken
    by_cases h1 : inp.canMint <;>
      by_cases h2 : inp.canFreeze <;>
      by_cases h3 : inp.liquidity < cfg.minLiquidity <;>
      by_cases h4 : inp.marketCap < cfg.minMarketCap <;>
      by_cases h5 : inp.topHolderPercent > 50 <;>
      by_cases h6 : inp.holderCount < 10 <;>
      simp [h1, h2, h3, h4, h5, h6]
  · decide

/-- C8: the confidence equals the base score plus the three bonuses, clamped
to the interval 0 to 100; it is always within that interval, and a risk score
of 0 with all bonuses applicable caps at exactly 100. -/
theorem c8_confidence_clamped :
    (∀ (cfg : Config) (v : TokenValidation),
      calculateConfidence cfg v =
        min 100 (max 0 ((100 - (v.riskScore : ℚ) * 10) +
          ((if v.liquidity ≥ cfg.minLiquidity * 3 then 10 else 0) +
           (if v.marketCap ≥ cfg.minMarketCap * 3 then 10 else 0) +
           (if !v.canMint && !v.canFreeze then 15 else 0))))) ∧
    (∀ (cfg : Config) (v : TokenValidation),
      0 ≤ calculateConfidence cfg v ∧ calculateConfidence cfg v ≤ 100) ∧
    (∀ (cfg : Config) (v : TokenValidation),
      v.riskScore = 0 → v.liquidity ≥ cfg.minLiquidity * 3 →
      v.marketCap ≥ cfg.minMarketCap * 3 → v.canMint = false →
      v.canFreeze = false → calculateConfidence cfg v = 100) := by
  refine ⟨?_, ?_, ?_⟩
  · intro cfg v
    simp only [calculateConfidence]
    by_cases h1 : v.liquidity ≥ cfg.minLiquidity * 3 <;>
      by_cases h2 : v.marketCap ≥ cfg.minMarketCap * 3 <;>
      by_cases hm : v.canMint <;>
      by_cases hf : v.canFreeze <;>
      simp only [h1, h2, hm, hf, Bool.not_true, Bool.not_false, Bool.and_self,
        Bool.and_false, Bool.false_and, Bool.true_and, if_true, if_false,
        ite_true, ite_false, Bool.false_eq_true, Bool.true_eq_false] <;>
      (congr 2; ring)
  · intro cfg v
    unfold calculateConfidence
    constructor
    · exact le_min (by norm_num) (le_max_left 0 _)
    · exact min_le_left _ _
  · intro cfg v h0 h1 h2 h3 h4
    simp only [calculateConfidence, h0, h3, h4, Bool.not_false, Bool.and_self,
      if_pos h1, if_pos h2, ite_true]
    norm_num

/-- Witness for C8 at concrete inputs: risk score 0 and every bonus
applicable yields exactly 100. -/
theorem c8_confidence_clamped_witness :
    calculateConfidence config
      { isValid := true, riskScore := 0, liquidity := 3000, marketCap := 15000,
        holderCount := 50, topHolderPercent := 10, hasLiquidityLock := false,
        canMint := false, canFreeze := false, reasons := [] } = 100 :=
  c8_confidence_clamped.2.2 config _ rfl (by norm_num [config])
    (by norm_num [config]) rfl rfl

/-- C1 counterexample: after registering a position, an `exitPosition` call
whose sell throws (sell result `none`) leaves the stored position with
`active = true`, not `active = false` as the claim states. -/
theorem c1_counterexample :
    activeInState (runOps config [MonitorOp.addPosition 0 "m" "M" 1 1]) "m" = true ∧
    (PositionMonitor.exitPosition "m" ExitReason.manual none 0
        (runOps config [MonitorOp.addPosition 0 "m" "M" 1 1])).2 = ExitOutcome.threw ∧
    ¬ activeInState (PositionMonitor.exitPosition "m" ExitReason.manual none 0
        (runOps config [MonitorOp.addPosition 0 "m" "M" 1 1])).1 "m" = false := by
  decide

/-- C1 amended: the `active = false` mutation happens only after the sell
call returns, so a failing sell leaves the whole monitor state unchanged
(an active position stays active and the outcome is the propagated error),
while a successful sell on an active position stores it with
`active = false`. -/
theorem c1_failed_sell_leaves_state_unchanged (tokenMint : String)
    (reason : ExitReason) (finalPrice : ℚ) (s : MonitorState) :
    (PositionMonitor.exitPosition tokenMint reason none finalPrice s).1 = s ∧
    (∀ p, s.positions tokenMint = some p → p.active = true →
      (PositionMonitor.exitPosition tokenMint reason none finalPrice s).2 =
        ExitOutcome.threw) ∧
    (∀ signature p, s.positions tokenMint = some p → p.active = true →
      ((PositionMonitor.exitPosition tokenMint reason (some signature) finalPrice
          s).1).positions tokenMint = some { p with active := false }) := by
  refine ⟨?_, ?_, ?_⟩
  · unfold PositionMonitor.exitPosition
    cases h : s.positions tokenMint with
    | none => rfl
    | some p => cases hp : p.active <;> simp [hp]
  · intro p hpos hact
    unfold PositionMonitor.exitPosition
    rw [hpos]
    simp [hact]
  · intro signature p hpos hact
    unfold PositionMonitor.exitPosition
    rw [hpos]
    simp [hact]

/-- Witness for C1's amended theorem: a successful sell on the registered
position stores it inactive. -/
theorem c1_failed_sell_leaves_state_unchanged_witness :
    ((PositionMonitor.exitPosition "m" ExitReason.manual (some "sig") 0
        (runOps config [MonitorOp.addPosition 0 "m" "M" 1 1])).1).positions "m" =
      some { tokenMint := "m", tokenSymbol := "M", entryPrice := 1, entryTime := 0,
             amountSol := 1, active := false } :=
  (c1_failed_sell_leaves_state_unchanged "m" ExitReason.manual 0
      (runOps config [MonitorOp.addPosition 0 "m" "M" 1 1])).2.2 "sig"
    { tokenMint := "m", tokenSymbol := "M", entryPrice := 1, entryTime := 0,
      amountSol := 1, active := true } rfl rfl

/-- C4: the surfaced exit reason follows the fixed priority take-profit,
then stop-loss, then max-hold-time; in particular when the take-profit
condition holds the reason is take-profit regardless of the other
conditions. -/
theorem c4_exit_reason_priority (cfg : Config) (now : ℤ) (tokenMint : String)
    (currentPrice : ℚ) (sellResult : Option String) (finalPrice : ℚ)
    (s : MonitorState) (p : Position)
    (hpos : s.positions tokenMint = some p) (hact : p.active = true)
    (hprice : ¬ currentPrice = 0) :
    (profitPercentOf currentPrice p.entryPrice ≥ cfg.takeProfitPercent →
      (PositionMonitor.checkPosition cfg now tokenMint currentPrice sellResult
          finalPrice s).2 =
        some (ExitReason.takeProfit (profitPercentOf currentPrice p.entryPrice))) ∧
    (¬ profitPercentOf currentPrice p.entryPrice ≥ cfg.takeProfitPercent →
      profitPercentOf currentPrice p.entryPrice ≤ cfg.stopLossPercent →
      (PositionMonitor.checkPosition cfg now tokenMint currentPrice sellResult
          finalPrice s).2 =
        some (ExitReason.stopLoss (profitPercentOf currentPrice p.entryPrice))) ∧
    (¬ profitPercentOf currentPrice p.entryPrice ≥ cfg.takeProfitPercent →
      ¬ profitPercentOf currentPrice p.entryPrice ≤ cfg.stopLossPercent →
      now - p.entryTime ≥ cfg.maxHoldTime →
      (PositionMonitor.checkPosition cfg now tokenMint currentPrice sellResult
          finalPrice s).2 =
        some (ExitReason.maxHold (now - p.entryTime))) := by
  refine ⟨?_, ?_, ?_⟩
  · intro htp
    unfold PositionMonitor.checkPosition
    rw [hpos]
    simp only [hact, if_pos rfl, if_neg hprice, ite_true]
    rw [if_pos (Or.inl htp), if_pos htp]
  · intro htp hsl
    unfold PositionMonitor.checkPosition
    rw [hpos]
    simp only [hact, if_pos rfl, if_neg hprice, ite_true]
    rw [if_pos (Or.inr (Or.inl hsl)), if_neg htp, if_pos hsl]
  · intro htp hsl hmh
    unfold PositionMonitor.checkPosition
    rw [hpos]
    simp only [hact, if_pos rfl, if_neg hprice, ite_true]
    rw [if_pos (Or.inr (Or.inr hmh)), if_neg htp, if_neg hsl]

/-- Witness for C4: from the registered position with entry price 1, a
current price of 5/4 under the default thresholds surfaces the take-profit
reason with profit 25 percent (which also exceeds no other threshold first). -/
theorem c4_exit_reason_priority_witness :
    (PositionMonitor.checkPosition config 0 "m" (5 / 4) (some "sig") 0
        (runOps config [MonitorOp.addPosition 0 "m" "M" 1 1])).2 =
      some (ExitReason.takeProfit 25) := by
  have h := (c4_exit_reason_priority config 0 "m" (5 / 4) (some "sig") 0
      (runOps config [MonitorOp.addPosition 0 "m" "M" 1 1])
      { tokenMint := "m", tokenSymbol := "M", entryPrice := 1, entryTime := 0,
        amountSol := 1, active := true } rfl rfl (by norm_num)).1
    (by norm_num [profitPercentOf, config])
  rw [h]
  norm_num [profitPercentOf]

/-- C9: when the fetched price is zero (in particular when both price
sources fail), `checkPosition` returns the state unchanged with no surfaced
reason, so the position's `active` flag is exactly what it was. -/
theorem c9_zero_price_skips_cycle (cfg : Config) (now : ℤ) (tokenMint : String)
    (primary : Option (Option ℚ)) (fallback : Option (List ℚ))
    (sellResult : Option String) (finalPrice : ℚ) (s : MonitorState)
    (hzero : getCurrentPrice primary fallback = 0) :
    PositionMonitor.checkPosition cfg now tokenMint
        (getCurrentPrice primary fallback) sellResult finalPrice s = (s, none) ∧
    activeInState (PositionMonitor.checkPosition cfg now tokenMint
        (getCurrentPrice primary fallback) sellResult finalPrice s).1 tokenMint =
      activeInState s tokenMint := by
  rw [hzero]
  have hmain : PositionMonitor.checkPosition cfg now tokenMint 0 sellResult
      finalPrice s = (s, none) := by
    unfold PositionMonitor.checkPosition
    cases h : s.positions tokenMint with
    | none => rfl
    | some p => cases hp : p.active <;> simp [hp]
  exact ⟨hmain, by rw [hmain]⟩

/-- Witness for C9: both price sources failing yields price 0, and the check
cycle leaves the freshly added position's state untouched. -/
theorem c9_zero_price_skips_cycle_witness :
    PositionMonitor.checkPosition config 5 "m" (getCurrentPrice none none)
        none 0 (runOps config [MonitorOp.addPosition 0 "m" "M" 1 1]) =
      (runOps config [MonitorOp.addPosition 0 "m" "M" 1 1], none) :=
  (c9_zero_price_skips_cycle config 5 "m" none none none 0
    (runOps config [MonitorOp.addPosition 0 "m" "M" 1 1]) rfl).1

/-- The active flag only depends on the position entry under the mint. -/
theorem activeInState_congr (s s' : MonitorState) (k : String)
    (h : s'.positions k = s.positions k) :
    activeInState s' k = activeInState s k := by
  unfold activeInState
  rw [h]

/-- An `exitPosition` call either leaves the state unchanged or, when the
stored position is active and the sell succeeds, replaces exactly that
position by its inactive copy and clears exactly its interval entry. -/
theorem exitPosition_fst_cases (tokenMint : String) (reason : ExitReason)
    (sellResult : Option String) (finalPrice : ℚ) (s : MonitorState) :
    (PositionMonitor.exitPosition tokenMint reason sellResult finalPrice s).1 = s ∨
    ∃ p, s.positions tokenMint = some p ∧ p.active = true ∧
      (PositionMonitor.exitPosition tokenMint reason sellResult finalPrice s).1 =
        { positions := fun k =>
            if k = tokenMint then some { p with active := false } else s.positions k
          monitoringIntervals := fun k =>
            if k = tokenMint then false else s.monitoringIntervals k } := by
  unfold PositionMonitor.exitPosition
  cases h : s.positions tokenMint with
  | none => exact Or.inl rfl
  | some p =>
    cases hp : p.active with
    | false => simp [hp]
    | true =>
      cases sellResult with
      | none => simp [hp]
      | some sig =>
        refine Or.inr ⟨p, rfl, hp, ?_⟩
        simp [hp]

/-- A `checkPosition` call either leaves the state unchanged or ends in the
state of some `exitPosition` call on the same mint. -/
theorem checkPosition_fst_cases (cfg : Config) (now : ℤ) (tokenMint : String)
    (currentPrice : ℚ) (sellResult : Option String) (finalPrice : ℚ)
    (s : MonitorState) :
    (PositionMonitor.checkPosition cfg now tokenMint currentPrice sellResult
        finalPrice s).1 = s ∨
    ∃ reason,
      (PositionMonitor.checkPosition cfg now tokenMint currentPrice sellResult
          finalPrice s).1 =
        (PositionMonitor.exitPosition tokenMint reason sellResult finalPrice s).1 := by
  unfold PositionMonitor.checkPosition
  cases h : s.positions tokenMint with
  | none => exact Or.inl rfl
  | some p =>
    cases hp : p.active with
    | false => simp [hp]
    | true =>
      by_cases hz : currentPrice = 0
      · simp [hp, hz]
      · simp only [hp, hz, ite_true, ite_false, if_true, if_false]
        by_cases hex : profitPercentOf currentPrice p.entryPrice ≥ cfg.takeProfitPercent ∨
            profitPercentOf currentPrice p.entryPrice ≤ cfg.stopLossPercent ∨
            now - p.entryTime ≥ cfg.maxHoldTime
        · rw [if_pos hex]
          exact Or.inr ⟨_, rfl⟩
        · rw [if_neg hex]
          exact Or.inl rfl

/-- A `manualExit` call either leaves the state unchanged or ends in the
state of the manual `exitPosition` call it delegates to. -/
theorem manualExit_fst_cases (tokenMint : String) (sellResult : Option String)
    (finalPrice : ℚ) (s : MonitorState) :
    (PositionMonitor.manualExit tokenMint sellResult finalPrice s).1 = s ∨
    (PositionMonitor.manualExit tokenMint sellResult finalPrice s).1 =
      (PositionMonitor.exitPosition tokenMint ExitReason.manual sellResult
          finalPrice s).1 := by
  unfold PositionMonitor.manualExit
  cases h : s.positions tokenMint with
  | none => exact Or.inl rfl
  | some p =>
    cases hp : p.active with
    | false => simp [hp]
    | true =>
      simp only [hp, ite_true, if_true]
      rcases hE : PositionMonitor.exitPosition tokenMint ExitReason.manual
          sellResult finalPrice s with ⟨s', out⟩
      cases out <;> simp

/-- An `exitPosition` call never turns an inactive (or absent) position
active. -/
theorem exitPosition_keeps_inactive (tokenMint : String) (reason : ExitReason)
    (sellResult : Option String) (finalPrice : ℚ) (s : MonitorState) (k : String)
    (h : activeInState s k = false) :
    activeInState
      (PositionMonitor.exitPosition tokenMint reason sellResult finalPrice s).1 k =
      false := by
  rcases exitPosition_fst_cases tokenMint reason sellResult finalPrice s with
    hE | ⟨p, hpos, hact, hE⟩
  · rw [hE]
    exact h
  · by_cases hk : k = tokenMint
    · rw [hE]
      unfold activeInState
      simp [hk]
    · have hpe : ((PositionMonitor.exitPosition tokenMint reason sellResult
            finalPrice s).1).positions k = s.positions k := by
        rw [hE]
        simp [hk]
      rw [activeInState_congr _ _ _ hpe]
      exact h

/-- No step other than an `addPosition` for the mint can turn the stored
position active. -/
theorem stepOp_keeps_inactive (cfg : Config) (s : MonitorState) (op : MonitorOp)
    (mint : String) (hin : activeInState s mint = false)
    (hadd : isAddFor mint op = false) :
    activeInState (stepOp cfg s op) mint = false := by
  cases op with
  | addPosition now m sym ep amt =>
    have hm : ¬ mint = m := by
      simp only [isAddFor, decide_eq_false_iff_not] at hadd
      exact fun h => hadd h.symm
    have hpe : (PositionMonitor.addPosition now m sym ep amt s).positions mint =
        s.positions mint := by
      unfold PositionMonitor.addPosition
      simp [hm]
    simp only [stepOp]
    rw [activeInState_congr _ _ _ hpe]
    exact hin
  | checkPosition now tokenMint price sell fp =>
    simp only [stepOp]
    rcases checkPosition_fst_cases cfg now tokenMint price sell fp s with hE | ⟨r, hE⟩
    · rw [hE]
      exact hin
    · rw [hE]
      exact exitPosition_keeps_inactive tokenMint r sell fp s mint hin
  | exitPosition tokenMint reason sell fp =>
    simp only [stepOp]
    exact exitPosition_keeps_inactive tokenMint reason sell fp s mint hin
  | manualExit tokenMint sell fp =>
    simp only [stepOp]
    rcases manualExit_fst_cases tokenMint sell fp s with hE | hE
    · rw [hE]
      exact hin
    · rw [hE]
      exact exitPosition_keeps_inactive tokenMint ExitReason.manual sell fp s mint hin
  | stopAll =>
    simp only [stepOp]
    have hpe : (PositionMonitor.stopAll s).positions mint = s.positions mint := rfl
    rw [activeInState_congr _ _ _ hpe]
    exact hin

/-- Folding any add-free (for the mint) operation list keeps the position
inactive. -/
theorem foldl_keeps_inactive (cfg : Config) (mint : String) :
    ∀ (ops : List MonitorOp) (s : MonitorState),
      activeInState s mint = false →
      (∀ op ∈ ops, isAddFor mint op = false) →
      activeInState (ops.foldl (stepOp cfg) s) mint = false := by
  intro ops
  induction ops with
  | nil =>
    intro s h _
    exact h
  | cons op rest ih =>
    intro s h hops
    simp only [List.foldl_cons]
    exact ih (stepOp cfg s op)
      (stepOp_keeps_inactive cfg s op mint h (hops op (by simp)))
      (fun o ho => hops o (by simp [ho]))

/-- C5 counterexample: after a successful exit the position stored under the
mint is inactive, but a later `addPosition` for the same mint (which the
source performs with no uniqueness guard) stores an active position there
again, so the stored position's `active` flag does go back to true. -/
theorem c5_counterexample :
    activeInState (runOps config
      [MonitorOp.addPosition 0 "m" "M" 1 1,
       MonitorOp.exitPosition "m" ExitReason.manual (some "sig") 0]) "m" = false ∧
    activeInState (runOps config
      [MonitorOp.addPosition 0 "m" "M" 1 1,
       MonitorOp.exitPosition "m" ExitReason.manual (some "sig") 0,
       MonitorOp.addPosition 5 "m" "M" 2 1]) "m" = true := by decide

/-- C5 amended: once the position stored under a mint is inactive, no later
sequence of operations that contains no `addPosition` for that mint ever
makes the stored position active again; only a fresh `addPosition` for the
mint (overwriting the record) can do so. -/
theorem c5_no_resurrection_without_add (cfg : Config) (mint : String)
    (ops1 ops2 : List MonitorOp)
    (hin : activeInState (runOps cfg ops1) mint = false)
    (hnoadd : ∀ op ∈ ops2, isAddFor mint op = false) :
    activeInState (runOps cfg (ops1 ++ ops2)) mint = false := by
  unfold runOps at hin ⊢
  rw [List.foldl_append]
  exact foldl_keeps_inactive cfg mint ops2 (ops1.foldl (stepOp cfg) initState)
    hin hnoadd

/-- Witness for C5's amended theorem on a concrete history: after an add and
a successful exit, a further check, manual exit and stop leave the position
inactive. -/
theorem c5_no_resurrection_without_add_witness :
    activeInState (runOps config
      ([MonitorOp.addPosition 0 "m" "M" 1 1,
        MonitorOp.exitPosition "m" ExitReason.manual (some "sig") 0] ++
       [MonitorOp.manualExit "m" (some "t") 0, MonitorOp.stopAll])) "m" = false :=
  c5_no_resurrection_without_add config "m"
    [MonitorOp.addPosition 0 "m" "M" 1 1,
     MonitorOp.exitPosition "m" ExitReason.manual (some "sig") 0]
    [MonitorOp.manualExit "m" (some "t") 0, MonitorOp.stopAll]
    (by decide) (by decide)

/-- `addPosition` keeps the one-directional monitoring invariant. -/
theorem addPosition_preserves_imp (now : ℤ) (tokenMint tokenSymbol : String)
    (entryPrice amountSol : ℚ) (s : MonitorState)
    (h : IntervalImpliesActive s) :
    IntervalImpliesActive
      (PositionMonitor.addPosition now tokenMint tokenSymbol entryPrice amountSol s) := by
  intro k hk_int
  by_cases hk : k = tokenMint
  · unfold PositionMonitor.addPosition activeInState
    simp [hk]
  · have h1 : (PositionMonitor.addPosition now tokenMint tokenSymbol entryPrice
        amountSol s).monitoringIntervals k = s.monitoringIntervals k := by
      unfold PositionMonitor.addPosition
      simp [hk]
    have h2 : (PositionMonitor.addPosition now tokenMint tokenSymbol entryPrice
        amountSol s).positions k = s.positions k := by
      unfold PositionMonitor.addPosition
      simp [hk]
    rw [h1] at hk_int
    rw [activeInState_congr _ _ _ h2]
    exact h k hk_int

/-- `addPosition` keeps the full monitoring invariant. -/
theorem addPosition_preserves_iff (now : ℤ) (tokenMint tokenSymbol : String)
    (entryPrice amountSol : ℚ) (s : MonitorState) (h : IntervalIffActive s) :
    IntervalIffActive
      (PositionMonitor.addPosition now tokenMint tokenSymbol entryPrice amountSol s) := by
  intro k
  by_cases hk : k = tokenMint
  · unfold PositionMonitor.addPosition activeInState
    simp [hk]
  · have h1 : (PositionMonitor.addPosition now tokenMint tokenSymbol entryPrice
        amountSol s).monitoringIntervals k = s.monitoringIntervals k := by
      unfold PositionMonitor.addPosition
      simp [hk]
    have h2 : (PositionMonitor.addPosition now tokenMint tokenSymbol entryPrice
        amountSol s).positions k = s.positions k := by
      unfold PositionMonitor.addPosition
      simp [hk]
    rw [h1, activeInState_congr _ _ _ h2]
    exact h k

/-- `exitPosition` keeps the one-directional monitoring invariant. -/
theorem exitPosition_preserves_imp (tokenMint : String) (reason : ExitReason)
    (sellResult : Option String) (finalPrice : ℚ) (s : MonitorState)
    (h : IntervalImpliesActive s) :
    IntervalImpliesActive
      (PositionMonitor.exitPosition tokenMint reason sellResult finalPrice s).1 := by
  rcases exitPosition_fst_cases tokenMint reason sellResult finalPrice s with
    hE | ⟨p, hpos, hact, hE⟩
  · rw [hE]
    exact h
  · intro k hk_int
    by_cases hk : k = tokenMint
    · rw [hE] at hk_int
      simp [hk] at hk_int
    · have h1 : ((PositionMonitor.exitPosition tokenMint reason sellResult
          finalPrice s).1).monitoringIntervals k = s.monitoringIntervals k := by
        rw [hE]
        simp [hk]
      have h2 : ((PositionMonitor.exitPosition tokenMint reason sellResult
          finalPrice s).1).positions k = s.positions k := by
        rw [hE]
        simp [hk]
      rw [h1] at hk_int
      rw [activeInState_congr _ _ _ h2]
      exact h k hk_int

/-- `exitPosition` keeps the full monitoring invariant. -/
theorem exitPosition_preserves_iff (tokenMint : String) (reason : ExitReason)
    (sellResult : Option String) (finalPrice : ℚ) (s : MonitorState)
    (h : IntervalIffActive s) :
    IntervalIffActive
      (PositionMonitor.exitPosition tokenMint reason sellResult finalPrice s).1 := by
  rcases exitPosition_fst_cases tokenMint reason sellResult finalPrice s with
    hE | ⟨p, hpos, hact, hE⟩
  · rw [hE]
    exact h
  · intro k
    by_cases hk : k = tokenMint
    · rw [hE]
      unfold activeInState
      simp [hk]
    · have h1 : ((PositionMonitor.exitPosition tokenMint reason sellResult
          finalPrice s).1).monitoringIntervals k = s.monitoringIntervals k := by
        rw [hE]
        simp [hk]
      have h2 : ((PositionMonitor.exitPosition tokenMint reason sellResult
          finalPrice s).1).positions k = s.positions k := by
        rw [hE]
        simp [hk]
      rw [h1, activeInState_congr _ _ _ h2]
      exact h k

/-- Every step keeps the one-directional monitoring invariant (including
`stopAll`, which only removes interval entries). -/
theorem stepOp_preserves_imp (cfg : Config) (s : MonitorState) (op : MonitorOp)
    (h : IntervalImpliesActive s) : IntervalImpliesActive (stepOp cfg s op) := by
  cases op with
  | addPosition now m sym ep amt =>
    simp only [stepOp]
    exact addPosition_preserves_imp now m sym ep amt s h
  | checkPosition now tokenMint price sell fp =>
    simp only [stepOp]
    rcases checkPosition_fst_cases cfg now tokenMint price sell fp s with hE | ⟨r, hE⟩
    · rw [hE]
      exact h
    · rw [hE]
      exact exitPosition_preserves_imp tokenMint r sell fp s h
  | exitPosition tokenMint reason sell fp =>
    simp only [stepOp]
    exact exitPosition_preserves_imp tokenMint reason sell fp s h
  | manualExit tokenMint sell fp =>
    simp only [stepOp]
    rcases manualExit_fst_cases tokenMint sell fp s with hE | hE
    · rw [hE]
      exact h
    · rw [hE]
      exact exitPosition_preserves_imp tokenMint ExitReason.manual sell fp s h
  | stopAll =>
    intro k hk_int
    exact absurd hk_int (by simp [stepOp, PositionMonitor.stopAll])

/-- Every step other than `stopAll` keeps the full monitoring invariant. -/
theorem stepOp_preserves_iff (cfg : Config) (s : MonitorState) (op : MonitorOp)
    (hop : op ≠ MonitorOp.stopAll) (h : IntervalIffActive s) :
    IntervalIffActive (stepOp cfg s op) := by
  cases op with
  | addPosition now m sym ep amt =>
    simp only [stepOp]
    exact addPosition_preserves_iff now m sym ep amt s h
  | checkPosition now tokenMint price sell fp =>
    simp only [stepOp]
    rcases checkPosition_fst_cases cfg now tokenMint price sell fp s with hE | ⟨r, hE⟩
    · rw [hE]
      exact h
    · rw [hE]
      exact exitPosition_preserves_iff tokenMint r sell fp s h
  | exitPosition tokenMint reason sell fp =>
    simp only [stepOp]
    exact exitPosition_preserves_iff tokenMint reason sell fp s h
  | manualExit tokenMint sell fp =>
    simp only [stepOp]
    rcases manualExit_fst_cases tokenMint sell fp s with hE | hE
    · rw [hE]
      exact h
    · rw [hE]
      exact exitPosition_preserves_iff tokenMint ExitReason.manual sell fp s h
  | stopAll => exact absurd rfl hop

/-- Folding any operation list keeps the one-directional invariant. -/
theorem foldl_preserves_imp (cfg : Config) :
    ∀ (ops : List MonitorOp) (s : MonitorState), IntervalImpliesActive s →
      IntervalImpliesActive (ops.foldl (stepOp cfg) s) := by
  intro ops
  induction ops with
  | nil =>
    intro s h
    exact h
  | cons op rest ih =>
    intro s h
    simp only [List.foldl_cons]
    exact ih (stepOp cfg s op) (stepOp_preserves_imp cfg s op h)

/-- Folding a `stopAll`-free operation list keeps the full invariant. -/
theorem foldl_preserves_iff (cfg : Config) :
    ∀ (ops : List MonitorOp) (s : MonitorState),
      (∀ op ∈ ops, op ≠ MonitorOp.stopAll) → IntervalIffActive s →
      IntervalIffActive (ops.foldl (stepOp cfg) s) := by
  intro ops
  induction ops with
  | nil =>
    intro s _ h
    exact h
  | cons op rest ih =>
    intro s hops h
    simp only [List.foldl_cons]
    exact ih (stepOp cfg s op)
      (fun o ho => hops o (by simp [ho]))
      (stepOp_preserves_iff cfg s op (hops op (by simp)) h)

/-- C6 counterexample: after an `addPosition` followed by `stopAll` the
position stored under the mint is still active but its monitoring entry is
gone, so the claimed if-and-only-if invariant fails on a reachable state. -/
theorem c6_counterexample :
    activeInState (runOps config
      [MonitorOp.addPosition 0 "m" "M" 1 1, MonitorOp.stopAll]) "m" = true ∧
    (runOps config
      [MonitorOp.addPosition 0 "m" "M" 1 1,
       MonitorOp.stopAll]).monitoringIntervals "m" = false := by decide

/-- C6 amended: in every reachable state a monitoring entry implies an
active position for that mint, and the full if-and-only-if invariant holds
for every history that contains no `stopAll` (which cancels the tasks while
leaving the positions active). -/
theorem c6_interval_iff_active (cfg : Config) (ops : List MonitorOp)
    (mint : String) :
    ((runOps cfg ops).monitoringIntervals mint = true →
      activeInState (runOps cfg ops) mint = true) ∧
    ((∀ op ∈ ops, op ≠ MonitorOp.stopAll) →
      (runOps cfg ops).monitoringIntervals mint =
        activeInState (runOps cfg ops) mint) := by
  constructor
  · intro hmint
    exact foldl_preserves_imp cfg ops initState
      (fun k hk => absurd hk (by simp [initState])) mint hmint
  · intro hops
    exact foldl_preserves_iff cfg ops initState hops
      (fun k => by simp [initState, activeInState]) mint

/-- Witness for C6's amended theorem on concrete histories. -/
theorem c6_interval_iff_active_witness :
    activeInState (runOps config [MonitorOp.addPosition 0 "m" "M" 1 1]) "m" = true ∧
    (runOps config
      [MonitorOp.addPosition 0 "m" "M" 1 1,
       MonitorOp.exitPosition "m" ExitReason.manual (some "sig") 0]).monitoringIntervals "m" =
      activeInState (runOps config
        [MonitorOp.addPosition 0 "m" "M" 1 1,
         MonitorOp.exitPosition "m" ExitReason.manual (some "sig") 0]) "m" :=
  ⟨(c6_interval_iff_active config [MonitorOp.addPosition 0 "m" "M" 1 1] "m").1
      (by decide),
   (c6_interval_iff_active config
      [MonitorOp.addPosition 0 "m" "M" 1 1,
       MonitorOp.exitPosition "m" ExitReason.manual (some "sig") 0] "m").2
      (by decide)⟩
